import Mathlib

/-!
# Serial Vault: model-name validation, sub-store handlers, and `createdb`

A shallow embedding of three parts of the repository:

* `validateModelName` (package `service`), exercised by `service/utils_test.go`;
* `ListHandler` and `UpdateHandler` of `service/substore/handlers_substore.go`;
* `main` of `tools/createdb.go`.

Effectful code is embedded as a function from the results of the calls it
makes to the trace of outward calls it performs, in program order.
-/

namespace SerialVault

/-! ## Go error values -/

/-- A Go `error` value that is not nil. `EOF` is the sentinel `io.EOF`, which
the handlers compare against with `==`; every other error value is `other`,
carrying the text its `Error()` method returns. -/
inductive GoError where
  | EOF
  | other (msg : String)
deriving DecidableEq, Repr

/-- The text of `err.Error()`. -/
def GoError.Error : GoError → String
  | .EOF => "EOF"
  | .other msg => msg

/-! ## `validateModelName` -/

/-- Modelled from the spec: the characters the naming rule allows, "lowercase
ASCII letters, digits, and hyphens only". The body of `validateModelName`
(and the pattern it matches against) is not part of the available source. -/
def isNameChar (c : Char) : Bool :=
  c.isLower || c.isDigit || c == '-'

/-- The message `TestModelNameEmpty` compares against. -/
def errNameEmpty : String := "Name must not be empty"

/-- The message `TestModelNameUpperChar` compares against. -/
def errNameUppercase : String := "Name must not contain uppercase characters"

/-- The text `TestModelNameInvalidChar` searches for in the message. -/
def errNameInvalidChars : String := "Name contains invalid characters"

/-- Modelled from the spec: `validateModelName` of package `service`, whose
body is missing from the available source (only its tests are present). The
spec's rule is "lowercase ASCII letters, digits, and hyphens only, non-empty",
failing "with a distinct message for empty vs uppercase vs invalid
characters"; the three messages are the ones the tests check. `none` is Go's
`nil` error, `some msg` an error whose `Error()` is `msg`. Uppercase means an
uppercase ASCII letter. -/
def validateModelName (name : String) : Option String :=
  if name.data.isEmpty then
    some errNameEmpty
  else if name.data.any Char.isUpper then
    some errNameUppercase
  else if !name.data.all isNameChar then
    some errNameInvalidChars
  else
    none

/-! ## Sub-store handlers (`service/substore/handlers_substore.go`) -/

/-- The parts of an `*http.Request` the handlers look at: the route variables
that `mux.Vars` returns, and the rest of the request (headers, body), which
only the collaborators of `Deps` inspect. -/
structure Request where
  vars : List (String × String)
  header : List (String × String)
  body : String
deriving DecidableEq, Repr

/-- The Go map lookup `mux.Vars(r)[key]`: the empty string when the key is
absent. -/
def muxVar (r : Request) (key : String) : String :=
  match r.vars.lookup key with
  | some v => v
  | none => ""

/-- The collaborators the handlers call whose code lies outside the file:
`auth.GetUserFromJWT`, `strconv.Atoi` and `json.NewDecoder(r.Body).Decode`.
Each is given by the result it returns. -/
structure Deps (User Substore : Type) where
  getUserFromJWT : Request → Except GoError User
  atoi : String → Except GoError Int
  decode : Request → Except GoError Substore

/-- The outward calls of a handler, in program order. -/
inductive Event (User Substore : Type) where
  | setHeader (key value : String)
  | getUserFromJWT
  | decodeBody
  | formatStandardResponse (success : Bool) (code subcode message : String)
  | listHandler (user : User) (apiCall : Bool) (accountID : Int)
  | updateHandler (user : User) (apiCall : Bool) (storeID : Int) (store : Substore)
deriving DecidableEq, Repr

/-- The handler `ListHandler`, as the trace of its calls. -/
def ListHandler {User Substore : Type} (d : Deps User Substore) (r : Request) :
    List (Event User Substore) :=
  .setHeader "Content-Type" "application/json; charset=UTF-8" ::
  .getUserFromJWT ::
  match d.getUserFromJWT r with
  | .error err => [.formatStandardResponse false "error-auth" "" err.Error]
  | .ok authUser =>
    match d.atoi (muxVar r "id") with
    | .error err => [.formatStandardResponse false "error-invalid-account" "" err.Error]
    | .ok accountID => [.listHandler authUser false accountID]

/-- The handler `UpdateHandler`, as the trace of its calls. The `switch`
first tests `err == io.EOF`, then `err != nil`. -/
def UpdateHandler {User Substore : Type} (d : Deps User Substore) (r : Request) :
    List (Event User Substore) :=
  .setHeader "Content-Type" "application/json; charset=UTF-8" ::
  .getUserFromJWT ::
  match d.getUserFromJWT r with
  | .error err => [.formatStandardResponse false "error-auth" "" err.Error]
  | .ok authUser =>
    match d.atoi (muxVar r "id") with
    | .error err => [.formatStandardResponse false "error-invalid-account" "" err.Error]
    | .ok storeID =>
      .decodeBody ::
      match d.decode r with
      | .error .EOF =>
        [.formatStandardResponse false "error-store-data" "" "No sub-store data supplied."]
      | .error err => [.formatStandardResponse false "error-decode-json" "" err.Error]
      | .ok store => [.updateHandler authUser false storeID store]

/-- Whether an event is a call of `response.FormatStandardResponse`. -/
def Event.isResponse {User Substore : Type} : Event User Substore → Bool
  | .formatStandardResponse _ _ _ _ => true
  | _ => false

/-- Whether an event is a call of `listHandler` or `updateHandler`. -/
def Event.isInner {User Substore : Type} : Event User Substore → Bool
  | .listHandler _ _ _ => true
  | .updateHandler _ _ _ _ => true
  | _ => false

/-- Whether an event reads the request body. -/
def Event.isBodyRead {User Substore : Type} : Event User Substore → Bool
  | .decodeBody => true
  | _ => false

/-! ## `createdb` (`tools/createdb.go`) -/

/-- The schema operations of `env.DB` that `main` calls and checks. -/
inductive Step where
  | CreateKeypairTable
  | CreateModelTable
  | CreateSettingsTable
  | CreateSigningLogTable
  | CreateDeviceNonceTable
  | CreateAccountTable
  | AlterModelTable
  | AlterKeypairTable
deriving DecidableEq, Repr

/-- What one run of `createdb` meets: the configuration read into
`env.Config`, the constant `service.TPM20Store.Name` (declared outside the
file), and the error (`none` for nil) that each checked call returns when it
is made. `main` makes each of these calls at most once. -/
structure World where
  KeyStoreType : String
  TPM20StoreName : String
  result : Step → Option GoError
  tpm2Result : Option GoError

/-- The outward calls of `main`, in program order. `fatal` is `log.Fatal`,
which ends the process. -/
inductive MainEvent where
  | parseArgs
  | readConfig
  | openSysDatabase
  | db (s : Step)
  | putKeypair (authorityID keyID : String)
  | println (msg : String)
  | tpm2InitializeKeystore
  | fatal (err : GoError)
deriving DecidableEq, Repr

/-- The idiom `if err != nil { log.Fatal(err) } else { log.Println(msg); ok }`
followed by `rest`: on an error the process ends at `log.Fatal`, otherwise
the message is logged, the else-branch `ok` runs, and the program goes on
with `rest`. -/
def check (err : Option GoError) (msg : String) (ok rest : List MainEvent) :
    List MainEvent :=
  match err with
  | some e => [.fatal e]
  | none => .println msg :: (ok ++ rest)

/-- The final block of `main`: the TPM 2.0 store is set up only when it is the
configured key store. -/
def mainTPM (w : World) : List MainEvent :=
  if w.KeyStoreType = w.TPM20StoreName then
    .println "Initialize the TPM2.0 store" ::
    .tpm2InitializeKeystore ::
    check w.tpm2Result "Initialized TPM 2.0 module." [] []
  else
    []

/-- The program `main` of `createdb`, as the trace of its calls. The results
of `ReadConfig` and `PutKeypair` are not looked at by the program. The calls
that are not followed by a check (`ParseArgs`, `ReadConfig`,
`OpenSysDatabase`, `PutKeypair`) are taken to return to `main`. -/
def main (w : World) : List MainEvent :=
  .parseArgs :: .readConfig :: .openSysDatabase ::
  .db .CreateKeypairTable ::
  check (w.result .CreateKeypairTable) "Created the 'keypair' table."
    (if w.KeyStoreType = "filesystem" then
      [.putKeypair "System" "61abf588e52be7a3"]
    else [])
  (.db .CreateModelTable ::
  check (w.result .CreateModelTable) "Created the 'model' table." []
  (.db .CreateSettingsTable ::
  check (w.result .CreateSettingsTable) "Created the 'settings' table." []
  (.db .CreateSigningLogTable ::
  check (w.result .CreateSigningLogTable) "Created the 'signinglog' table." []
  (.db .CreateDeviceNonceTable ::
  check (w.result .CreateDeviceNonceTable) "Created the 'nonce' table." []
  (.db .CreateAccountTable ::
  check (w.result .CreateAccountTable) "Created the 'account' table." []
  (.db .AlterModelTable ::
  check (w.result .AlterModelTable) "Updated the 'model' table." []
  (.db .AlterKeypairTable ::
  check (w.result .AlterKeypairTable) "Updated the 'keypair' table." []
  (mainTPM w))))))))

/-- The order in which the source text of `main` lists the schema steps. -/
def schemaOrder : List Step :=
  [.CreateKeypairTable, .CreateModelTable, .CreateSettingsTable,
   .CreateSigningLogTable, .CreateDeviceNonceTable, .CreateAccountTable,
   .AlterModelTable, .AlterKeypairTable]

/-- The schema steps a trace calls, in the order it calls them. -/
def calledSteps (t : List MainEvent) : List Step :=
  t.filterMap fun e =>
    match e with
    | .db s => some s
    | _ => none

/-- The steps of `steps` up to and including the first one that returns an
error (all of them when none does). -/
def throughFirstFailure (result : Step → Option GoError) : List Step → List Step
  | [] => []
  | s :: rest =>
    match result s with
    | some _ => [s]
    | none => s :: throughFirstFailure result rest

/-- Whether every schema step returns nil in this run. -/
def allStepsOk (w : World) : Prop :=
  ∀ s ∈ schemaOrder, w.result s = none

/-- The line `main` logs after the step `s` returned nil. -/
def stepMessage : Step → String
  | .CreateKeypairTable => "Created the 'keypair' table."
  | .CreateModelTable => "Created the 'model' table."
  | .CreateSettingsTable => "Created the 'settings' table."
  | .CreateSigningLogTable => "Created the 'signinglog' table."
  | .CreateDeviceNonceTable => "Created the 'nonce' table."
  | .CreateAccountTable => "Created the 'account' table."
  | .AlterModelTable => "Updated the 'model' table."
  | .AlterKeypairTable => "Updated the 'keypair' table."

/-- What the else-branch of the step `s` does after logging: the test key is
stored after the keypair table was created, when the key store is the
filesystem one; the other steps do nothing more. -/
def afterStep (w : World) : Step → List MainEvent
  | .CreateKeypairTable =>
    if w.KeyStoreType = "filesystem" then [.putKeypair "System" "61abf588e52be7a3"] else []
  | _ => []

/-- The trace of `main` from a list of schema steps still to run onwards: a
restatement of the body of `main`, used to reason about it step by step
(`main_eq_runSteps` shows it is the same program). -/
def runSteps (w : World) : List Step → List MainEvent
  | [] => mainTPM w
  | s :: rest =>
    .db s :: check (w.result s) (stepMessage s) (afterStep w s) (runSteps w rest)

/-! ## Sample inputs -/

/-- The value of a run of decimal digits added to `acc` (most significant
digit first); `none` when a character is not a digit. -/
def digitsValue : List Char → Nat → Option Nat
  | [], acc => some acc
  | c :: cs, acc =>
    if c.isDigit then digitsValue cs (acc * 10 + (c.toNat - 48)) else none

/-- A sample `strconv.Atoi`: an optional sign followed by at least one decimal
digit parses when the value fits a 64-bit `int`; anything else is an error.
The error text is a placeholder. Used only to build concrete requests. -/
def sampleAtoi (s : String) : Except GoError Int :=
  let (neg, ds) :=
    match s.data with
    | '-' :: ds => (true, ds)
    | '+' :: ds => (false, ds)
    | ds => (false, ds)
  if ds.isEmpty then .error (.other "invalid")
  else
    match digitsValue ds 0 with
    | none => .error (.other "invalid")
    | some n =>
      if neg then
        if n ≤ 2 ^ 63 then .ok (-(n : Int)) else .error (.other "invalid")
      else
        if n < 2 ^ 63 then .ok (n : Int) else .error (.other "invalid")

/-- Sample collaborators: the user is the `Authorization` header (an error
when there is none), the decoded sub-store is the body (`io.EOF` when it is
empty, a decoding error when it does not start with an opening brace). -/
def sampleDeps : Deps String String where
  getUserFromJWT := fun r =>
    match r.header.lookup "Authorization" with
    | some u => .ok u
    | none => .error (.other "No JWT data")
  atoi := sampleAtoi
  decode := fun r =>
    if r.body = "" then .error .EOF
    else if r.body.front = '\x7b' then .ok r.body
    else .error (.other "invalid character")

/-- A run in which every call succeeds and the key store is `ks`. -/
def okWorld (ks : String) : World where
  KeyStoreType := ks
  TPM20StoreName := "tpm2.0"
  result := fun _ => none
  tpm2Result := none

/-- A run with the TPM 2.0 key store in which the module fails to start. -/
def tpmFailWorld : World where
  KeyStoreType := "tpm2.0"
  TPM20StoreName := "tpm2.0"
  result := fun _ => none
  tpm2Result := some (.other "tpm2 failure")

/-- A run in which creating the settings table fails. -/
def settingsFailWorld : World where
  KeyStoreType := "filesystem"
  TPM20StoreName := "tpm2.0"
  result := fun s => if s = .CreateSettingsTable then some (.other "no table") else none
  tpm2Result := none

/-! ## Theorems: `validateModelName` -/

/-- A character the naming rule allows is not an uppercase ASCII letter. -/
theorem not_isUpper_of_isNameChar (c : Char) (h : isNameChar c = true) :
    c.isUpper = false := by
  simp only [isNameChar, Char.isLower, Char.isDigit, Bool.or_eq_true, Bool.and_eq_true,
    decide_eq_true_eq, beq_iff_eq] at h
  simp only [Char.isUpper, Bool.and_eq_false_imp, decide_eq_true_eq, decide_eq_false_iff_not]
  intro h1 h2
  rcases h with (⟨h3, h4⟩ | ⟨h3, h4⟩) | h3
  · simp only [ge_iff_le, UInt32.le_def, BitVec.le_def] at h1 h2 h3 h4
    simp at h1 h2 h3 h4
    omega
  · simp only [ge_iff_le, UInt32.le_def, BitVec.le_def] at h1 h2 h3 h4
    simp at h1 h2 h3 h4
    omega
  · subst h3
    revert h1
    decide

/-- An uppercase ASCII letter is not a character the naming rule allows. -/
theorem not_isNameChar_of_isUpper (c : Char) (h : c.isUpper = true) :
    isNameChar c = false := by
  cases hn : isNameChar c with
  | false => rfl
  | true => rw [not_isUpper_of_isNameChar c hn] at h; cases h

/-- C1: every non-empty name made only of lowercase ASCII letters, digits and
hyphens is accepted: `validateModelName` returns no error. -/
theorem validateModelName_valid (name : String) (hne : name ≠ "")
    (hall : ∀ c ∈ name.data, c.isLower = true ∨ c.isDigit = true ∨ c = '-') :
    validateModelName name = none := by
  have hdata : name.data ≠ [] := fun h => hne (String.ext h)
  have hok : ∀ c ∈ name.data, isNameChar c = true := by
    intro c hc
    rcases hall c hc with h | h | h <;> simp [isNameChar, h]
  have hup : name.data.any Char.isUpper = false := by
    rw [List.any_eq_false]
    intro c hc
    simp [not_isUpper_of_isNameChar c (hok c hc)]
  have hal : name.data.all isNameChar = true := List.all_eq_true.mpr hok
  simp [validateModelName, hdata, hup, hal]

/-- C1, at the name of `TestModelName`. -/
theorem validateModelName_valid_witness :
    validateModelName "my-model-01" = none :=
  validateModelName_valid "my-model-01" (by decide) (by decide)

/-- C2: the empty name is refused with exactly the message
"Name must not be empty". -/
theorem validateModelName_empty :
    validateModelName "" = some "Name must not be empty" := by
  decide

/-- C3: a name with at least one uppercase ASCII letter, and otherwise only
lowercase letters, digits and hyphens, is refused with exactly the message
"Name must not contain uppercase characters". -/
theorem validateModelName_uppercase (name : String)
    (hup : ∃ c ∈ name.data, c.isUpper = true)
    (_hall : ∀ c ∈ name.data,
      c.isUpper = true ∨ c.isLower = true ∨ c.isDigit = true ∨ c = '-') :
    validateModelName name = some "Name must not contain uppercase characters" := by
  obtain ⟨c, hc, hcu⟩ := hup
  have hdata : name.data ≠ [] := List.ne_nil_of_mem hc
  have hany : name.data.any Char.isUpper = true := List.any_eq_true.mpr ⟨c, hc, hcu⟩
  simp [validateModelName, hdata, hany, errNameUppercase]

/-- C3, at the names "my-Model-01" and "My-Model". -/
theorem validateModelName_uppercase_witness :
    validateModelName "my-Model-01" = some "Name must not contain uppercase characters" ∧
    validateModelName "My-Model" = some "Name must not contain uppercase characters" :=
  ⟨validateModelName_uppercase "my-Model-01" (by decide) (by decide),
   validateModelName_uppercase "My-Model" (by decide) (by decide)⟩

/-- C4: a non-empty name with no uppercase letter and at least one character
outside a-z, 0-9 and the hyphen is refused with a message that contains
"Name contains invalid characters" and that is neither the empty-name message
nor the uppercase message. -/
theorem validateModelName_invalidChars (name : String)
    (hne : name ≠ "")
    (hup : ∀ c ∈ name.data, c.isUpper = false)
    (hbad : ∃ c ∈ name.data, ¬ (c.isLower = true ∨ c.isDigit = true ∨ c = '-')) :
    ∃ msg, validateModelName name = some msg ∧
      "Name contains invalid characters".data <:+: msg.data ∧
      msg ≠ "Name must not be empty" ∧
      msg ≠ "Name must not contain uppercase characters" := by
  have hdata : name.data ≠ [] := fun h => hne (String.ext h)
  have hany : name.data.any Char.isUpper = false := by
    rw [List.any_eq_false]
    intro c hc
    simp [hup c hc]
  have hal : name.data.all isNameChar = false := by
    obtain ⟨c, hc, hcb⟩ := hbad
    rw [List.all_eq_false]
    refine ⟨c, hc, ?_⟩
    intro h
    apply hcb
    simpa [isNameChar, or_assoc] using h
  refine ⟨errNameInvalidChars, ?_, ?_, ?_, ?_⟩
  · simp [validateModelName, hdata, hany, hal]
  · exact List.infix_refl _
  · decide
  · decide

/-- C4, at the names "my-model-01_" and "my_model". -/
theorem validateModelName_invalidChars_witness :
    (∃ msg, validateModelName "my-model-01_" = some msg ∧
      "Name contains invalid characters".data <:+: msg.data ∧
      msg ≠ "Name must not be empty" ∧
      msg ≠ "Name must not contain uppercase characters") ∧
    (∃ msg, validateModelName "my_model" = some msg ∧
      "Name contains invalid characters".data <:+: msg.data ∧
      msg ≠ "Name must not be empty" ∧
      msg ≠ "Name must not contain uppercase characters") :=
  ⟨validateModelName_invalidChars "my-model-01_" (by decide) (by decide) (by decide),
   validateModelName_invalidChars "my_model" (by decide) (by decide) (by decide)⟩

/-! ## Theorems: sub-store handlers -/

/-- C5: when `auth.GetUserFromJWT` returns an error, `ListHandler` and
`UpdateHandler` both set the content type, write the one standard response
(success false, code "error-auth", message the text of the auth error) and
return: exactly one response is written and neither `listHandler` nor
`updateHandler` is called, whatever the id variable and the body are. -/
theorem handlers_auth_error {User Substore : Type} (d : Deps User Substore)
    (r : Request) (e : GoError) (hauth : d.getUserFromJWT r = .error e) :
    ListHandler d r =
      [.setHeader "Content-Type" "application/json; charset=UTF-8", .getUserFromJWT,
       .formatStandardResponse false "error-auth" "" e.Error] ∧
    UpdateHandler d r =
      [.setHeader "Content-Type" "application/json; charset=UTF-8", .getUserFromJWT,
       .formatStandardResponse false "error-auth" "" e.Error] ∧
    ((ListHandler d r).filter Event.isResponse).length = 1 ∧
    ((UpdateHandler d r).filter Event.isResponse).length = 1 ∧
    (ListHandler d r).any Event.isInner = false ∧
    (UpdateHandler d r).any Event.isInner = false := by
  simp [ListHandler, UpdateHandler, hauth, Event.isResponse, Event.isInner]

/-- C5, at a request without credentials (with and without an id and a body). -/
theorem handlers_auth_error_witness :
    ListHandler sampleDeps ⟨[("id", "12")], [], "\x7b\x7d"⟩ =
      [.setHeader "Content-Type" "application/json; charset=UTF-8", .getUserFromJWT,
       .formatStandardResponse false "error-auth" "" "No JWT data"] ∧
    UpdateHandler sampleDeps ⟨[], [], ""⟩ =
      [.setHeader "Content-Type" "application/json; charset=UTF-8", .getUserFromJWT,
       .formatStandardResponse false "error-auth" "" "No JWT data"] :=
  ⟨(handlers_auth_error sampleDeps ⟨[("id", "12")], [], "\x7b\x7d"⟩
      (.other "No JWT data") rfl).1,
   (handlers_auth_error sampleDeps ⟨[], [], ""⟩ (.other "No JWT data") rfl).2.1⟩

/-- C8: in `UpdateHandler`, once authentication succeeded and the id parsed, a
decoding failure with `io.EOF` gives the response (false, "error-store-data",
"No sub-store data supplied."), any other decoding failure gives the code
"error-decode-json", in both cases without a call of `updateHandler`; and
`updateHandler` is called, with the authenticated user, false, the parsed id
and the decoded sub-store, only when decoding succeeds. -/
theorem updateHandler_decode {User Substore : Type} (d : Deps User Substore)
    (r : Request) (u : User) (n : Int)
    (hauth : d.getUserFromJWT r = .ok u) (hid : d.atoi (muxVar r "id") = .ok n) :
    (d.decode r = .error .EOF →
      UpdateHandler d r =
        [.setHeader "Content-Type" "application/json; charset=UTF-8", .getUserFromJWT,
         .decodeBody,
         .formatStandardResponse false "error-store-data" "" "No sub-store data supplied."]) ∧
    (∀ e, d.decode r = .error e → e ≠ .EOF →
      UpdateHandler d r =
        [.setHeader "Content-Type" "application/json; charset=UTF-8", .getUserFromJWT,
         .decodeBody,
         .formatStandardResponse false "error-decode-json" "" e.Error]) ∧
    (∀ e, d.decode r = .error e → (UpdateHandler d r).any Event.isInner = false) ∧
    (∀ store, d.decode r = .ok store →
      UpdateHandler d r =
        [.setHeader "Content-Type" "application/json; charset=UTF-8", .getUserFromJWT,
         .decodeBody, .updateHandler u false n store]) ∧
    (∀ u' b n' store, .updateHandler u' b n' store ∈ UpdateHandler d r →
      d.decode r = .ok store ∧ u' = u ∧ b = false ∧ n' = n) := by
  refine ⟨?_, ?_, ?_, ?_, ?_⟩
  · intro h
    simp [UpdateHandler, hauth, hid, h]
  · intro e h hne
    cases e with
    | EOF => exact absurd rfl hne
    | other msg => simp [UpdateHandler, hauth, hid, h, GoError.Error]
  · intro e h
    cases e <;> simp [UpdateHandler, hauth, hid, h, Event.isInner]
  · intro store h
    simp [UpdateHandler, hauth, hid, h]
  · intro u' b n' store hmem
    cases h : d.decode r with
    | error e => cases e <;> simp [UpdateHandler, hauth, hid, h] at hmem
    | ok s =>
      simp [UpdateHandler, hauth, hid, h] at hmem
      obtain ⟨h1, h2, h3, h4⟩ := hmem
      simp [h1, h2, h3, h4]

/-- C8, at an authenticated request for store 12 with an empty body, with a
body that is not JSON, and with a JSON body. -/
theorem updateHandler_decode_witness :
    UpdateHandler sampleDeps ⟨[("id", "12")], [("Authorization", "u")], ""⟩ =
      [.setHeader "Content-Type" "application/json; charset=UTF-8", .getUserFromJWT,
       .decodeBody,
       .formatStandardResponse false "error-store-data" "" "No sub-store data supplied."] ∧
    UpdateHandler sampleDeps ⟨[("id", "12")], [("Authorization", "u")], "x"⟩ =
      [.setHeader "Content-Type" "application/json; charset=UTF-8", .getUserFromJWT,
       .decodeBody,
       .formatStandardResponse false "error-decode-json" "" "invalid character"] ∧
    UpdateHandler sampleDeps ⟨[("id", "12")], [("Authorization", "u")], "\x7b\x7d"⟩ =
      [.setHeader "Content-Type" "application/json; charset=UTF-8", .getUserFromJWT,
       .decodeBody, .updateHandler "u" false 12 "\x7b\x7d"] :=
  ⟨(updateHandler_decode sampleDeps ⟨[("id", "12")], [("Authorization", "u")], ""⟩
      "u" 12 rfl rfl).1 rfl,
   (updateHandler_decode sampleDeps ⟨[("id", "12")], [("Authorization", "u")], "x"⟩
      "u" 12 rfl rfl).2.1 (.other "invalid character") rfl (by decide),
   (updateHandler_decode sampleDeps ⟨[("id", "12")], [("Authorization", "u")], "\x7b\x7d"⟩
      "u" 12 rfl rfl).2.2.2.1 "\x7b\x7d" rfl⟩

/-- C9: when authentication succeeds but `strconv.Atoi` refuses the route
variable "id", `ListHandler` and `UpdateHandler` both answer with success false
and the code "error-invalid-account" (the same code in `UpdateHandler`, where
the id is a store id), call neither `listHandler` nor `updateHandler`, and
`UpdateHandler` has not read the request body. -/
theorem handlers_invalid_id {User Substore : Type} (d : Deps User Substore)
    (r : Request) (u : User) (e : GoError)
    (hauth : d.getUserFromJWT r = .ok u) (hid : d.atoi (muxVar r "id") = .error e) :
    ListHandler d r =
      [.setHeader "Content-Type" "application/json; charset=UTF-8", .getUserFromJWT,
       .formatStandardResponse false "error-invalid-account" "" e.Error] ∧
    UpdateHandler d r =
      [.setHeader "Content-Type" "application/json; charset=UTF-8", .getUserFromJWT,
       .formatStandardResponse false "error-invalid-account" "" e.Error] ∧
    (ListHandler d r).any Event.isInner = false ∧
    (UpdateHandler d r).any Event.isInner = false ∧
    (UpdateHandler d r).any Event.isBodyRead = false := by
  simp [ListHandler, UpdateHandler, hauth, hid, Event.isInner, Event.isBodyRead]

/-- C9, at authenticated requests whose id is "abc" and whose id is absent. -/
theorem handlers_invalid_id_witness :
    ListHandler sampleDeps ⟨[("id", "abc")], [("Authorization", "u")], ""⟩ =
      [.setHeader "Content-Type" "application/json; charset=UTF-8", .getUserFromJWT,
       .formatStandardResponse false "error-invalid-account" "" "invalid"] ∧
    UpdateHandler sampleDeps ⟨[], [("Authorization", "u")], "\x7b\x7d"⟩ =
      [.setHeader "Content-Type" "application/json; charset=UTF-8", .getUserFromJWT,
       .formatStandardResponse false "error-invalid-account" "" "invalid"] :=
  ⟨(handlers_invalid_id sampleDeps ⟨[("id", "abc")], [("Authorization", "u")], ""⟩
      "u" (.other "invalid") rfl rfl).1,
   (handlers_invalid_id sampleDeps ⟨[], [("Authorization", "u")], "\x7b\x7d"⟩
      "u" (.other "invalid") rfl rfl).2.1⟩

/-! ## Theorems: `createdb` -/

/-- The trace of `main` when every schema step returns nil. -/
theorem main_of_allStepsOk (w : World) (h : allStepsOk w) :
    main w =
      [.parseArgs, .readConfig, .openSysDatabase,
       .db .CreateKeypairTable, .println "Created the 'keypair' table."] ++
      (if w.KeyStoreType = "filesystem" then
        [.putKeypair "System" "61abf588e52be7a3"] else []) ++
      [.db .CreateModelTable, .println "Created the 'model' table.",
       .db .CreateSettingsTable, .println "Created the 'settings' table.",
       .db .CreateSigningLogTable, .println "Created the 'signinglog' table.",
       .db .CreateDeviceNonceTable, .println "Created the 'nonce' table.",
       .db .CreateAccountTable, .println "Created the 'account' table.",
       .db .AlterModelTable, .println "Updated the 'model' table.",
       .db .AlterKeypairTable, .println "Updated the 'keypair' table."] ++
      mainTPM w := by
  simp only [allStepsOk, schemaOrder, List.mem_cons, List.mem_singleton, forall_eq_or_imp,
    forall_eq, List.not_mem_nil, false_implies, implies_true, and_true] at h
  obtain ⟨h1, h2, h3, h4, h5, h6, h7, h8⟩ := h
  simp [main, check, h1, h2, h3, h4, h5, h6, h7, h8]

/-- When some schema step returns an error, `main` never reaches the TPM
block: the call of `TPM2InitializeKeystore` is not in the trace. -/
theorem tpm2_not_mem_of_failure (w : World) (h : ¬ allStepsOk w) :
    MainEvent.tpm2InitializeKeystore ∉ main w := by
  intro hmem
  apply h
  simp only [allStepsOk, schemaOrder, List.mem_cons, List.mem_singleton, forall_eq_or_imp,
    forall_eq, List.not_mem_nil, false_implies, implies_true, and_true]
  cases h1 : w.result .CreateKeypairTable
  case some e => simp [main, check, h1] at hmem
  cases h2 : w.result .CreateModelTable
  case some e => simp [main, check, h1, h2] at hmem
  cases h3 : w.result .CreateSettingsTable
  case some e => simp [main, check, h1, h2, h3] at hmem
  cases h4 : w.result .CreateSigningLogTable
  case some e => simp [main, check, h1, h2, h3, h4] at hmem
  cases h5 : w.result .CreateDeviceNonceTable
  case some e => simp [main, check, h1, h2, h3, h4, h5] at hmem
  cases h6 : w.result .CreateAccountTable
  case some e => simp [main, check, h1, h2, h3, h4, h5, h6] at hmem
  cases h7 : w.result .AlterModelTable
  case some e => simp [main, check, h1, h2, h3, h4, h5, h6, h7] at hmem
  cases h8 : w.result .AlterKeypairTable
  case some e => simp [main, check, h1, h2, h3, h4, h5, h6, h7, h8] at hmem
  simp

/-- When every schema step returns nil, the trace of `main` is a part without
any TPM call or TPM success line, followed by the TPM block. -/
theorem main_split_of_allStepsOk (w : World) (h : allStepsOk w) :
    ∃ pre, main w = pre ++ mainTPM w ∧
      MainEvent.tpm2InitializeKeystore ∉ pre ∧
      MainEvent.println "Initialized TPM 2.0 module." ∉ pre := by
  refine ⟨_, main_of_allStepsOk w h, ?_, ?_⟩ <;> split_ifs <;> simp

/-- C6: `TPM2InitializeKeystore` is called at most once, and it is called
exactly when `KeyStoreType` equals `TPM20Store.Name` and every table create or
alter step before it returned nil; when the call returns an error the trace
ends right there with `log.Fatal` of that error, and the line
"Initialized TPM 2.0 module." is never logged. -/
theorem main_tpm2 (w : World) :
    (main w).count .tpm2InitializeKeystore ≤ 1 ∧
    (.tpm2InitializeKeystore ∈ main w ↔
      w.KeyStoreType = w.TPM20StoreName ∧ allStepsOk w) ∧
    (∀ e, .tpm2InitializeKeystore ∈ main w → w.tpm2Result = some e →
      [.tpm2InitializeKeystore, .fatal e] <:+ main w ∧
      .println "Initialized TPM 2.0 module." ∉ main w) := by
  by_cases hok : allStepsOk w
  · obtain ⟨pre, hmain, hpre, hlog⟩ := main_split_of_allStepsOk w hok
    have hcount : pre.count .tpm2InitializeKeystore = 0 := List.count_eq_zero.mpr hpre
    rw [hmain]
    by_cases htpm : w.KeyStoreType = w.TPM20StoreName
    · cases hr : w.tpm2Result with
      | none =>
        simp [mainTPM, check, hok, htpm, hr, hcount, List.count_append, List.count_cons]
      | some e =>
        refine ⟨?_, ?_, ?_⟩
        · simp [mainTPM, check, htpm, hr, hcount, List.count_append, List.count_cons]
        · simp [mainTPM, check, hok, htpm, hr]
        · intro e' _ he'
          cases he'
          refine ⟨?_, ?_⟩
          · refine ⟨pre ++ [.println "Initialize the TPM2.0 store"], ?_⟩
            simp [mainTPM, check, htpm, hr]
          · simp [mainTPM, check, htpm, hr, hlog]
    · simp [mainTPM, hok, htpm, hcount, hpre, hlog]
  · have hnot := tpm2_not_mem_of_failure w hok
    refine ⟨?_, ?_, ?_⟩
    · rw [List.count_eq_zero.mpr hnot]
      exact Nat.zero_le 1
    · simp [hnot, hok]
    · intro e hmem
      exact absurd hmem hnot

/-- The program `main` is `runSteps` over the schema steps in source order,
after its three opening calls. -/
theorem main_eq_runSteps (w : World) :
    main w = .parseArgs :: .readConfig :: .openSysDatabase :: runSteps w schemaOrder := by
  simp [main, runSteps, schemaOrder, stepMessage, afterStep]

/-- The TPM block calls no schema step. -/
theorem db_not_mem_mainTPM (w : World) (s : Step) : MainEvent.db s ∉ mainTPM w := by
  unfold mainTPM
  split_ifs
  · cases w.tpm2Result <;> simp [check]
  · simp

/-- The else-branch of a step calls no schema step. -/
theorem db_not_mem_afterStep (w : World) (t s : Step) : MainEvent.db s ∉ afterStep w t := by
  cases t <;> simp [afterStep]

/-- The steps that `runSteps` calls are those up to the first failing one. -/
theorem calledSteps_runSteps (w : World) (l : List Step) :
    calledSteps (runSteps w l) = throughFirstFailure w.result l := by
  have hfilter : ∀ t : List MainEvent, (∀ s, MainEvent.db s ∉ t) → calledSteps t = [] := by
    intro t ht
    unfold calledSteps
    rw [List.filterMap_eq_nil_iff]
    intro e he
    cases e with
    | db s => exact absurd he (ht s)
    | _ => rfl
  induction l with
  | nil => exact hfilter _ (db_not_mem_mainTPM w)
  | cons t rest ih =>
    have hafter := hfilter _ (db_not_mem_afterStep w t)
    unfold calledSteps at ih hafter
    cases hr : w.result t with
    | some e => simp [runSteps, check, throughFirstFailure, hr, calledSteps]
    | none =>
      simp [runSteps, check, throughFirstFailure, hr, calledSteps, List.filterMap_append, ih,
        hafter]

/-- The steps up to the first failing one are an initial segment of the list. -/
theorem throughFirstFailure_initial (result : Step → Option GoError) (l : List Step) :
    throughFirstFailure result l <+: l := by
  induction l with
  | nil => exact List.prefix_refl _
  | cons t rest ih =>
    cases hr : result t with
    | some e => simp [throughFirstFailure, hr]
    | none => simpa [throughFirstFailure, hr, List.cons_prefix_cons] using ih

/-- A called step that returns an error is followed by `log.Fatal` of that
error, and there the trace ends. -/
theorem runSteps_fatal (w : World) (s : Step) (e : GoError) (hs : w.result s = some e)
    (l : List Step) (hmem : MainEvent.db s ∈ runSteps w l) :
    [MainEvent.db s, MainEvent.fatal e] <:+ runSteps w l := by
  induction l with
  | nil => exact absurd hmem (db_not_mem_mainTPM w s)
  | cons t rest ih =>
    cases hr : w.result t with
    | some e' =>
      simp only [runSteps, check, hr, List.mem_cons, MainEvent.db.injEq, List.mem_singleton,
        List.not_mem_nil, or_false, reduceCtorEq] at hmem
      subst hmem
      rw [hs] at hr
      cases hr
      simp [runSteps, check, hs]
    | none =>
      simp only [runSteps, check, hr, List.mem_cons, MainEvent.db.injEq, List.mem_append,
        reduceCtorEq, false_or] at hmem
      rcases hmem with h | h | h
      · subst h
        rw [hs] at hr
        cases hr
      · exact absurd h (db_not_mem_afterStep w t s)
      · obtain ⟨pre, hpre⟩ := ih h
        refine ⟨.db t :: .println (stepMessage t) :: (afterStep w t ++ pre), ?_⟩
        simp [runSteps, check, hr, ← hpre]

/-- A step is called in a trace exactly when it is among the called steps. -/
theorem mem_calledSteps (t : List MainEvent) (s : Step) :
    s ∈ calledSteps t ↔ MainEvent.db s ∈ t := by
  unfold calledSteps
  rw [List.mem_filterMap]
  constructor
  · rintro ⟨e, he, hes⟩
    cases e with
    | db s' =>
      simp only [Option.some.injEq] at hes
      subst hes
      exact he
    | _ => simp at hes
  · intro h
    exact ⟨.db s, h, rfl⟩

/-- No step listed after a failing step is among the steps up to the first
failure. -/
theorem throughFirstFailure_stops (result : Step → Option GoError) (s : Step)
    (hs : result s ≠ none) (pre post : List Step) :
    ∀ x ∈ throughFirstFailure result (pre ++ s :: post), x ∈ pre ++ [s] := by
  induction pre with
  | nil =>
    intro x hx
    cases hr : result s with
    | none => exact absurd hr hs
    | some e => simpa [throughFirstFailure, hr] using hx
  | cons t rest ih =>
    intro x hx
    cases hr : result t with
    | some e =>
      simp only [List.cons_append, throughFirstFailure, hr, List.mem_singleton] at hx
      simp [hx]
    | none =>
      simp only [List.cons_append, throughFirstFailure, hr, List.mem_cons] at hx
      rcases hx with h | h
      · simp [h]
      · have := ih x h
        simp only [List.cons_append, List.mem_cons]
        exact Or.inr this

/-- The test key is stored only by the else-branch of `CreateKeypairTable`. -/
theorem putKeypair_not_mem_runSteps (w : World) (a k : String) (l : List Step)
    (hl : Step.CreateKeypairTable ∉ l) : MainEvent.putKeypair a k ∉ runSteps w l := by
  induction l with
  | nil =>
    unfold runSteps mainTPM
    split_ifs
    · cases w.tpm2Result <;> simp [check]
    · simp
  | cons t rest ih =>
    simp only [List.mem_cons, not_or] at hl
    have hafter : afterStep w t = [] := by
      cases t <;> simp [afterStep] at hl ⊢
    cases hr : w.result t with
    | some e => simp [runSteps, check, hr]
    | none => simp [runSteps, check, hr, hafter, ih hl.2]

/-- C10: `main` runs its schema steps in the fixed order `CreateKeypairTable`,
`CreateModelTable`, `CreateSettingsTable`, `CreateSigningLogTable`,
`CreateDeviceNonceTable`, `CreateAccountTable`, `AlterModelTable`,
`AlterKeypairTable`, up to and including the first one that returns an error;
a called step that returns an error is followed by `log.Fatal` and nothing
else, so no step listed after it and no TPM call is executed; and the test
keypair ("System", "61abf588e52be7a3") is stored exactly when
`CreateKeypairTable` returned nil and `KeyStoreType` is "filesystem". -/
theorem main_schema_steps (w : World) :
    calledSteps (main w) = throughFirstFailure w.result schemaOrder ∧
    calledSteps (main w) <+: schemaOrder ∧
    (∀ s e, .db s ∈ main w → w.result s = some e →
      [.db s, .fatal e] <:+ main w ∧ .tpm2InitializeKeystore ∉ main w) ∧
    (∀ pre s post, schemaOrder = pre ++ s :: post → w.result s ≠ none →
      ∀ t ∈ post, .db t ∉ main w) ∧
    (∀ a k, .putKeypair a k ∈ main w ↔
      a = "System" ∧ k = "61abf588e52be7a3" ∧
      w.result .CreateKeypairTable = none ∧ w.KeyStoreType = "filesystem") := by
  have hcalled : calledSteps (main w) = throughFirstFailure w.result schemaOrder := by
    rw [main_eq_runSteps, ← calledSteps_runSteps]
    simp [calledSteps]
  refine ⟨hcalled, ?_, ?_, ?_, ?_⟩
  · rw [hcalled]
    exact throughFirstFailure_initial _ _
  · intro s e hmem hs
    refine ⟨?_, ?_⟩
    · rw [main_eq_runSteps] at hmem ⊢
      simp only [List.mem_cons, reduceCtorEq, false_or] at hmem
      obtain ⟨pre, hpre⟩ := runSteps_fatal w s e hs schemaOrder hmem
      exact ⟨.parseArgs :: .readConfig :: .openSysDatabase :: pre, by simp [← hpre]⟩
    · apply tpm2_not_mem_of_failure
      intro hok
      have hin : s ∈ schemaOrder := by cases s <;> simp [schemaOrder]
      rw [hok s hin] at hs
      cases hs
  · intro pre s post hsplit hs t ht hmem
    have hcs : t ∈ throughFirstFailure w.result schemaOrder := by
      rw [← hcalled]
      exact (mem_calledSteps _ _).mpr hmem
    rw [hsplit] at hcs
    have hfront := throughFirstFailure_stops w.result s hs pre post t hcs
    have hnodup : (pre ++ s :: post).Nodup := by
      rw [← hsplit]
      decide
    have hdisj : (pre ++ [s] ++ post).Nodup := by simpa using hnodup
    exact (List.disjoint_of_nodup_append hdisj) hfront ht
  · intro a k
    rw [main_eq_runSteps]
    have hrest := putKeypair_not_mem_runSteps w a k
      [.CreateModelTable, .CreateSettingsTable, .CreateSigningLogTable,
       .CreateDeviceNonceTable, .CreateAccountTable, .AlterModelTable, .AlterKeypairTable]
      (by decide)
    have hrun : runSteps w schemaOrder =
        .db .CreateKeypairTable ::
          check (w.result .CreateKeypairTable) (stepMessage .CreateKeypairTable)
            (afterStep w .CreateKeypairTable)
            (runSteps w [.CreateModelTable, .CreateSettingsTable, .CreateSigningLogTable,
              .CreateDeviceNonceTable, .CreateAccountTable, .AlterModelTable,
              .AlterKeypairTable]) := rfl
    rw [hrun]
    generalize runSteps w [.CreateModelTable, .CreateSettingsTable, .CreateSigningLogTable,
      .CreateDeviceNonceTable, .CreateAccountTable, .AlterModelTable,
      .AlterKeypairTable] = tail at hrest
    cases hr : w.result .CreateKeypairTable with
    | some e => simp [check]
    | none =>
      by_cases hfs : w.KeyStoreType = "filesystem"
      · simp [check, afterStep, hfs, hrest]
      · simp [check, afterStep, hfs, hrest]

/-- C10, at a run in which creating the settings table fails: the steps called
are the first three, and the trace ends with that failure. -/
theorem main_schema_steps_witness :
    calledSteps (main settingsFailWorld) =
      [.CreateKeypairTable, .CreateModelTable, .CreateSettingsTable] ∧
    [.db .CreateSettingsTable, .fatal (.other "no table")] <:+ main settingsFailWorld ∧
    MainEvent.tpm2InitializeKeystore ∉ main settingsFailWorld ∧
    MainEvent.putKeypair "System" "61abf588e52be7a3" ∈ main settingsFailWorld :=
  ⟨(main_schema_steps settingsFailWorld).1.trans (by decide),
   ((main_schema_steps settingsFailWorld).2.2.1 .CreateSettingsTable (.other "no table")
      (by decide) (by decide)).1,
   ((main_schema_steps settingsFailWorld).2.2.1 .CreateSettingsTable (.other "no table")
      (by decide) (by decide)).2,
   ((main_schema_steps settingsFailWorld).2.2.2.2 "System" "61abf588e52be7a3").mpr
      ⟨rfl, rfl, by decide, by decide⟩⟩

/-- C6, at a run with the TPM 2.0 key store whose module fails to start, and
at a run with the filesystem key store. -/
theorem main_tpm2_witness :
    [MainEvent.tpm2InitializeKeystore, MainEvent.fatal (.other "tpm2 failure")] <:+
      main tpmFailWorld ∧
    MainEvent.println "Initialized TPM 2.0 module." ∉ main tpmFailWorld ∧
    MainEvent.tpm2InitializeKeystore ∉ main (okWorld "filesystem") :=
  ⟨((main_tpm2 tpmFailWorld).2.2 (.other "tpm2 failure")
      ((main_tpm2 tpmFailWorld).2.1.mpr ⟨by decide, fun _ _ => rfl⟩) (by decide)).1,
   ((main_tpm2 tpmFailWorld).2.2 (.other "tpm2 failure")
      ((main_tpm2 tpmFailWorld).2.1.mpr ⟨by decide, fun _ _ => rfl⟩) (by decide)).2,
   fun h => absurd ((main_tpm2 (okWorld "filesystem")).2.1.mp h).1 (by decide)⟩

end SerialVault
